import Mathlib

/-!
Verification development for the Firmament flow scheduler core.

This file gives a shallow embedding, in Lean 4, of the parts of the codebase
relevant to the checked properties:

* `FlowScheduler` (src/scheduling/flow/flow_scheduler.cc): cost-model
  selection, scheduling-delta application, the task-migration handler, and the
  time-dependent cost-update trigger of `RunSchedulingIteration`;
* `SimulatedQuincyCostModel`
  (src/scheduling/flow/sim/simulated_quincy_cost_model.cc): data-locality cost
  computation, preference arcs, and machine removal;
* `GenerateTrace` (src/misc/generate_trace.cc): the trace emitter's id
  hashing, per-task runtime accounting, and the `generate_trace` flag guard.

Modelling conventions: machine integers are `Nat` with explicit reduction
modulo `2 ^ w` at the points where the C++ code can wrap in the regimes the
properties quantify over; C++ `double` comparisons on block proportions are
modelled exactly over `ℚ`; fatal paths (`CHECK` / `LOG(FATAL)`) are modelled
by `Option` with `none` for process abort; `unordered_map`s are modelled as
association lists built only through the update operation below, so their key
lists stay duplicate-free.  All definitions are translated from the source
files under src/, except the two marked `Modelled from the spec:` (their code
lives outside the provided sources) and the one spec-side cost formula
`claimedMachineCost`, which exists only to be compared against the code's
formula.
-/

namespace Firmament

/-! ### Machine arithmetic -/

/-- `2 ^ 64`, the modulus of `uint64_t` arithmetic. -/
def w64 : Nat := 2 ^ 64

/-- `2 ^ 32`, the modulus of `uint32_t` arithmetic. -/
def w32 : Nat := 2 ^ 32

/-- Wrapping `uint64_t` subtraction: `a - b` computed modulo `2 ^ 64`. -/
def sub64 (a b : Nat) : Nat := (a + (w64 - b % w64)) % w64

/-! ### Association lists (model of `unordered_map` / `map`)

Lookup returns the first matching key; `aupd` (the model of `operator[] =` /
`InsertIfNotPresent` writes) updates an existing entry in place or appends a
fresh one, so maps built from `[]` by `aupd` never carry duplicate keys. -/

/-- Lookup in an association list keyed by `Nat`. -/
def alookup {β : Type} : List (Nat × β) → Nat → Option β
  | [], _ => none
  | (k, v) :: rest, key => if k = key then some v else alookup rest key

/-- Lookup with a default value (model of `FindWithDefault` and of
`operator[]` reads on absent keys, which yield a value-initialised entry). -/
def alookupD {β : Type} (l : List (Nat × β)) (key : Nat) (d : β) : β :=
  (alookup l key).getD d

/-- Insert-or-update (model of `map[key] = value`). -/
def aupd {β : Type} : List (Nat × β) → Nat → β → List (Nat × β)
  | [], key, v => [(key, v)]
  | (k, w) :: rest, key, v =>
    if k = key then (k, v) :: rest else (k, w) :: aupd rest key v

/-- The keys of an association list. -/
def akeys {β : Type} (l : List (Nat × β)) : List Nat := l.map Prod.fst

/-- Erase a key (model of `unordered_map::erase`). -/
def aerase {β : Type} (l : List (Nat × β)) (key : Nat) : List (Nat × β) :=
  l.filter (fun p => p.1 ≠ key)

/-! ## Cost-model selection

`FlowScheduler::FlowScheduler` selects the cost model in a `switch` on the
`flow_scheduling_cost_model` flag (an `int32`).  The numeric values of the
`CostModelType` enumerators are fixed by the flag's docstring in
flow_scheduler.cc: `0 = TRIVIAL, 1 = RANDOM, 2 = SJF, 3 = QUINCY, 4 = WHARE,
5 = COCO, 6 = OCTOPUS, 7 = VOID, 8 = SIMULATED QUINCY`.  The `switch` contains
cases only for the first seven (a `TODO(ionel)` comment marks VOID and
SIMULATE_QUINCY as unimplemented); everything else reaches
`default: LOG(FATAL)`, modelled by `none`. -/

/-- The cost models actually constructible by the `switch`. -/
inductive CostModelKind
  | Trivial | Random | SJF | Quincy | Whare | Coco | Octopus
  deriving DecidableEq, Repr

/-- The `switch (FLAGS_flow_scheduling_cost_model)` of the `FlowScheduler`
constructor, in source case order. -/
def selectCostModel (flag : Int) : Option CostModelKind :=
  if flag = 0 then some .Trivial
  else if flag = 1 then some .Random
  else if flag = 5 then some .Coco
  else if flag = 2 then some .SJF
  else if flag = 3 then some .Quincy
  else if flag = 4 then some .Whare
  else if flag = 6 then some .Octopus
  else none

/-! ## Task migration handling

`FlowScheduler::HandleTaskMigration` reads the task's current binding from
`task_bindings_` *before* delegating to the base-class handler, then calls
`FlowGraph::TaskMigrated` with that pre-call binding as the `from` resource.
Task and resource ids are modelled as `Nat`. -/

/-- The scheduler state visible to the migration handler: the
`task_bindings_` map from task id to bound resource id. -/
structure FlowSchedState where
  taskBindings : List (Nat × Nat)
  deriving Repr

/-- A call made by the scheduler into the flow graph. -/
inductive FlowGraphCall
  | taskMigrated (taskId fromRes toRes : Nat)
  deriving DecidableEq, Repr

/-- Modelled from the spec: `EventDrivenScheduler::HandleTaskMigration` (base
class, not under src/).  Per the spec's delta-application contract, the base
handler rebinds the task, so a `task_bindings_` lookup made after this call
returns the task's *new* resource. -/
def eventDrivenHandleTaskMigration (bindings : List (Nat × Nat))
    (taskId newRes : Nat) : List (Nat × Nat) :=
  aupd bindings taskId newRes

/-- `FlowScheduler::HandleTaskMigration`: look up the old binding, abort
(`CHECK_NOTNULL`) if the task has none, call the base handler, then notify
the flow graph with the *pre-call* binding as `from`. -/
def handleTaskMigration (st : FlowSchedState) (taskId newRes : Nat) :
    Option (FlowSchedState × List FlowGraphCall) :=
  match alookup st.taskBindings taskId with
  | none => none
  | some oldRes =>
    let bindings := eventDrivenHandleTaskMigration st.taskBindings taskId newRes
    some (⟨bindings⟩, [.taskMigrated taskId oldRes newRes])

/-! ## Scheduling-delta application

`FlowScheduler::ApplySchedulingDeltas` walks the delta vector in order.  For
every delta (including NOOPs) it first looks up the task and resource and
aborts (`CHECK_NOTNULL`) if either is missing; NOOP deltas are then skipped
with `continue` — *before* `set_actioned` — while PLACE deltas invoke the
placement handler and bump `num_scheduled`, PREEMPT deltas invoke the
eviction handler, MIGRATE deltas the migration handler, and each non-NOOP
delta is marked `actioned`. -/

/-- `SchedulingDelta::ChangeType`. -/
inductive DeltaType
  | NOOP | PLACE | PREEMPT | MIGRATE
  deriving DecidableEq, Repr

/-- A scheduling delta (type, task, target resource, `actioned` flag). -/
structure SchedulingDelta where
  dtype : DeltaType
  taskId : Nat
  resId : Nat
  actioned : Bool
  deriving DecidableEq, Repr

/-- A handler invocation performed while applying a delta
(`HandleTaskPlacement` / `HandleTaskEviction` / `HandleTaskMigration`). -/
inductive SchedulerAction
  | placed (taskId resId : Nat)
  | evicted (taskId resId : Nat)
  | migrated (taskId resId : Nat)
  deriving DecidableEq, Repr

/-- The handler call a delta triggers, if any. -/
def deltaAction (d : SchedulingDelta) : Option SchedulerAction :=
  match d.dtype with
  | .NOOP => none
  | .PLACE => some (.placed d.taskId d.resId)
  | .PREEMPT => some (.evicted d.taskId d.resId)
  | .MIGRATE => some (.migrated d.taskId d.resId)

/-- `FlowScheduler::ApplySchedulingDeltas`.  `taskKnown`/`resKnown` model the
`task_map_`/`resource_map_` lookups guarded by `CHECK_NOTNULL` (abort =
`none`).  Returns `num_scheduled`, the delta list after the `set_actioned`
updates, and the handler invocations in order. -/
def applySchedulingDeltas (taskKnown resKnown : Nat → Bool) :
    List SchedulingDelta →
    Option (Nat × List SchedulingDelta × List SchedulerAction)
  | [] => some (0, [], [])
  | d :: ds =>
    if taskKnown d.taskId && resKnown d.resId then
      match d.dtype with
      | .NOOP =>
        (applySchedulingDeltas taskKnown resKnown ds).map fun r =>
          (r.1, d :: r.2.1, r.2.2)
      | .PLACE =>
        (applySchedulingDeltas taskKnown resKnown ds).map fun r =>
          (r.1 + 1, { d with actioned := true } :: r.2.1,
           .placed d.taskId d.resId :: r.2.2)
      | .PREEMPT =>
        (applySchedulingDeltas taskKnown resKnown ds).map fun r =>
          (r.1, { d with actioned := true } :: r.2.1,
           .evicted d.taskId d.resId :: r.2.2)
      | .MIGRATE =>
        (applySchedulingDeltas taskKnown resKnown ds).map fun r =>
          (r.1, { d with actioned := true } :: r.2.1,
           .migrated d.taskId d.resId :: r.2.2)
    else none

/-! ## Time-dependent cost update trigger

In `FlowScheduler::RunSchedulingIteration`, the guard is

  `last_updated_time_dependent_costs_ <= (cur_time -
     static_cast<uint64_t>(FLAGS_time_dependent_cost_update_frequency))`

with the subtraction performed in wrapping `uint64_t` arithmetic; when it
fires, all jobs whose state is not COMPLETED/FAILED/ABORTED are collected (in
`job_map_` iteration order) and passed to `UpdateTimeDependentCosts`. -/

/-- `JobDescriptor` states relevant to the update trigger. -/
inductive JobState
  | New | Running | Completed | Failed | Aborted
  deriving DecidableEq, Repr

/-- Whether a job is still active (the `if` in the collection loop). -/
def jobActive (s : JobState) : Bool :=
  s != JobState.Completed && s != JobState.Failed && s != JobState.Aborted

/-- The collection loop over `job_map_`: push every active job, in order. -/
def collectActiveJobs : List (Nat × JobState) → List Nat
  | [] => []
  | (jid, s) :: rest =>
    if jobActive s then jid :: collectActiveJobs rest
    else collectActiveJobs rest

/-- Scheduler state seen by the time-dependent update step:
`last_updated_time_dependent_costs_` and the job map. -/
structure TimeDepState where
  lastUpdatedTimeDependentCosts : Nat
  jobMap : List (Nat × JobState)
  deriving Repr

/-- The time-dependent portion of `RunSchedulingIteration`: first component is
`some jobs` when `UpdateTimeDependentCosts` is invoked on `jobs` and `none`
when the update is skipped; second component is the updated
`last_updated_time_dependent_costs_`. -/
def timeDependentUpdateStep (st : TimeDepState) (curTime freq : Nat) :
    Option (List Nat) × Nat :=
  if st.lastUpdatedTimeDependentCosts ≤ sub64 curTime freq then
    (some (collectActiveJobs st.jobMap), curTime)
  else (none, st.lastUpdatedTimeDependentCosts)

/-! ## SimulatedQuincy cost model

From src/scheduling/flow/sim/simulated_quincy_cost_model.cc.  Machines, racks
(equivalence classes), tasks and files are `Nat` ids.  The file set of a task
is the one sampled by `BuildTaskFileSet` (`SimulatedDFS::SampleFiles` is an
external collaborator, so the sampled set is a parameter here); each sampled
file carries its block count and the set of machines holding a replica
(`ResourceSet_t`, hence duplicate-free — theorems that need it take a `Nodup`
hypothesis).  `machine_to_rack_map_` is modelled as a total function, matching
`operator[]`'s value-initialised default for absent machines.

`ComputeCostsAndPreferredSet` reads each machine frequency back through a
`uint32_t` local before adding (`uint32_t frequency = FindWithDefault(...)`),
hence the `% w32` below.  The block totals live in `uint64_t`; their wrap is
unreachable for the block counts the properties quantify over and is not
modelled, consistent with modelling the `double` proportions over `ℚ`. -/

/-- Configuration of `SimulatedQuincyCostModel` (the `double` thresholds are
modelled over `ℚ`, the `Cost_t` costs over `Int`). -/
structure SQConfig where
  deltaPreferredMachine : ℚ
  deltaPreferredRack : ℚ
  coreTransferCost : Int
  torTransferCost : Int

/-- One sampled file: its block count and the machines holding a replica. -/
structure SQFile where
  numBlocks : Nat
  machines : List Nat
  deriving Repr

/-- The inner loop over a file's machines: accumulate `machine_frequency`
(with the `uint32_t` read) and collect the set of racks touched by the file
(insertion-ordered, deduplicated — the `unordered_set<EquivClass_t> racks`). -/
def accumMachines (m2r : Nat → Nat) (numBlocks : Nat) :
    List Nat → List (Nat × Nat) → List Nat → List (Nat × Nat) × List Nat
  | [], mf, racks => (mf, racks)
  | m :: ms, mf, racks =>
    let freq := alookupD mf m 0 % w32
    let mf' := aupd mf m (freq + numBlocks)
    let racks' := if m2r m ∈ racks then racks else racks ++ [m2r m]
    accumMachines m2r numBlocks ms mf' racks'

/-- The loop over the file's rack set: add the file's blocks once per rack. -/
def accumRacks (numBlocks : Nat) :
    List Nat → List (Nat × Nat) → List (Nat × Nat)
  | [], rf => rf
  | r :: rs, rf => accumRacks numBlocks rs (aupd rf r (alookupD rf r 0 + numBlocks))

/-- The per-file body of the accumulation loop of
`ComputeCostsAndPreferredSet`: state is
`(machine_frequency, rack_frequency, total_num_blocks)`. -/
def accumFile (m2r : Nat → Nat)
    (st : List (Nat × Nat) × List (Nat × Nat) × Nat) (f : SQFile) :
    List (Nat × Nat) × List (Nat × Nat) × Nat :=
  let total := st.2.2 + f.numBlocks
  let mr := accumMachines m2r f.numBlocks f.machines st.1 []
  let rf := accumRacks f.numBlocks mr.2 st.2.1
  (mr.1, rf, total)

/-- The full accumulation over the task's sampled file set. -/
def accumFiles (m2r : Nat → Nat) (files : List SQFile) :
    List (Nat × Nat) × List (Nat × Nat) × Nat :=
  files.foldl (accumFile m2r) ([], [], 0)

/-- The machine-preference cost as the code computes it:
`num_rack_blocks -= num_local_blocks;`
`num_core_blocks = total - num_rack_blocks - num_local_blocks;`
`cost = num_core_blocks * core + num_rack_blocks * tor`. -/
def sqMachineCost (cfg : SQConfig) (m2r : Nat → Nat) (rf : List (Nat × Nat))
    (total : Nat) (m fq : Nat) : Int :=
  let rackBlocks := alookupD rf (m2r m) 0
  let numRack := rackBlocks - fq
  let numCore := total - numRack - fq
  (numCore : Int) * cfg.coreTransferCost + (numRack : Int) * cfg.torTransferCost

/-- The loop building `preferred_machine_map_[task]`: a machine is kept iff
its block proportion is `≥ delta_preferred_machine`. -/
def preferredMachinesOf (cfg : SQConfig) (m2r : Nat → Nat)
    (rf : List (Nat × Nat)) (total : Nat) (mf : List (Nat × Nat)) :
    List (Nat × Int) :=
  mf.filterMap fun p =>
    if cfg.deltaPreferredMachine ≤ (p.2 : ℚ) / (total : ℚ) then
      some (p.1, sqMachineCost cfg m2r rf total p.1 p.2)
    else none

/-- The rack-preference cost as the code computes it:
`num_core_blocks = total - num_rack_blocks;`
`cost = num_core_blocks * core + num_rack_blocks * tor`. -/
def sqRackCost (cfg : SQConfig) (total fq : Nat) : Int :=
  ((total - fq : Nat) : Int) * cfg.coreTransferCost +
    (fq : Int) * cfg.torTransferCost

/-- The loop building `preferred_rack_map_[task]`: a rack is kept iff its
block proportion is *strictly* greater than `delta_preferred_rack`. -/
def preferredRacksOf (cfg : SQConfig) (total : Nat)
    (rf : List (Nat × Nat)) : List (Nat × Int) :=
  rf.filterMap fun p =>
    if cfg.deltaPreferredRack < (p.2 : ℚ) / (total : ℚ) then
      some (p.1, sqRackCost cfg total p.2)
    else none

/-- Result of `ComputeCostsAndPreferredSet` for one task. -/
structure SQTaskCosts where
  preferredMachines : List (Nat × Int)
  preferredRacks : List (Nat × Int)
  clusterAggCost : Int
  deriving Repr

/-- `SimulatedQuincyCostModel::ComputeCostsAndPreferredSet` on the task's
sampled file set. -/
def computeCostsAndPreferredSet (cfg : SQConfig) (m2r : Nat → Nat)
    (files : List SQFile) : SQTaskCosts :=
  let acc := accumFiles m2r files
  { preferredMachines := preferredMachinesOf cfg m2r acc.2.1 acc.2.2 acc.1
    preferredRacks := preferredRacksOf cfg acc.2.2 acc.2.1
    clusterAggCost := (acc.2.2 : Int) * cfg.coreTransferCost }

/-- The per-task maps of `SimulatedQuincyCostModel`
(`preferred_machine_map_`, `preferred_rack_map_`,
`cluster_aggregator_cost_`). -/
structure SQState where
  preferredMachineMap : List (Nat × List (Nat × Int))
  preferredRackMap : List (Nat × List (Nat × Int))
  clusterAggregatorCost : List (Nat × Int)
  deriving Repr

/-- `SimulatedQuincyCostModel::AddTask` = `BuildTaskFileSet` (sampling, whose
result is the `files` parameter) followed by `ComputeCostsAndPreferredSet`. -/
def sqAddTask (cfg : SQConfig) (m2r : Nat → Nat) (st : SQState)
    (taskId : Nat) (files : List SQFile) : SQState :=
  let c := computeCostsAndPreferredSet cfg m2r files
  { preferredMachineMap := aupd st.preferredMachineMap taskId c.preferredMachines
    preferredRackMap := aupd st.preferredRackMap taskId c.preferredRacks
    clusterAggregatorCost := aupd st.clusterAggregatorCost taskId c.clusterAggCost }

/-- `SimulatedQuincyCostModel::GetTaskPreferenceArcs`: the keys of the task's
preferred-machine map, in iteration order. -/
def getTaskPreferenceArcs (st : SQState) (taskId : Nat) : List Nat :=
  akeys (alookupD st.preferredMachineMap taskId [])

/-- `SimulatedQuincyCostModel::TaskToResourceNodeCost`
(`(*cost_map)[resource_id]`, defaulting to a value-initialised 0). -/
def taskToResourceNodeCost (st : SQState) (taskId resId : Nat) : Int :=
  alookupD (alookupD st.preferredMachineMap taskId []) resId 0

/-- `SimulatedQuincyCostModel::GetTaskEquivClasses`: the task's preferred
racks. -/
def getTaskEquivClasses (st : SQState) (taskId : Nat) : List Nat :=
  akeys (alookupD st.preferredRackMap taskId [])

/-- `SimulatedQuincyCostModel::TaskToEquivClassAggregator`. -/
def taskToEquivClassAggregator (st : SQState) (taskId ec : Nat) : Int :=
  alookupD (alookupD st.preferredRackMap taskId []) ec 0

/-- `SimulatedQuincyCostModel::TaskToClusterAggCost`. -/
def taskToClusterAggCost (st : SQState) (taskId : Nat) : Int :=
  alookupD st.clusterAggregatorCost taskId 0

/-- `SimulatedQuincyCostModel::RemoveMachine`: after notifying the simulated
filesystem (an external collaborator, no state here), erase the machine from
every task's preferred-machine map. -/
def sqRemoveMachine (st : SQState) (resId : Nat) : SQState :=
  { st with preferredMachineMap :=
      st.preferredMachineMap.map fun p => (p.1, aerase p.2 resId) }

/-- The machine-preference cost exactly as the specification text states it:
`(total − rack_blocks(r) − local_blocks(m)) × core_transfer_cost +
 (rack_blocks(r) − local_blocks(m)) × tor_transfer_cost`
over signed integers.  This is a spec-side definition, written only to be
compared against the code's `sqMachineCost`. -/
def claimedMachineCost (cfg : SQConfig) (total rackBlocks localBlocks : Nat) :
    Int :=
  ((total : Int) - rackBlocks - localBlocks) * cfg.coreTransferCost +
    ((rackBlocks : Int) - localBlocks) * cfg.torTransferCost

/-! ## Trace emitter

From src/misc/generate_trace.cc.  Every public operation is guarded by
`FLAGS_generate_trace`; emitted CSV rows are modelled as `TraceRow` values and
the mutable maps (`task_to_job_`, `job_num_tasks_`, `task_to_runtime_`) as a
`TraceState`.  Timestamps come from `time_manager_->GetCurrentTimestamp()`
and are passed as the `now` parameter. -/

/-- Boost's `hash_combine` on a 64-bit `size_t`:
`seed ^= v + 0x9e3779b9 + (seed << 6) + (seed >> 2)`. -/
def hashCombine (seed v : Nat) : Nat :=
  Nat.xor (seed % w64)
    ((v % w64 + 0x9e3779b9 + (seed % w64) * 64 % w64 + seed % w64 / 4) % w64)

/-- The literal `simulator_machine_prefix` of `GetMachineId`. -/
def simMachineTag : String := "firmament_simulation_machine_"

/-- The literal `simulator_job_prefix` of `TaskSubmitted`. -/
def simJobTag : String := "firmament_simulation_job_"

/-- The fields of `ResourceDescriptor` the emitter reads. -/
structure ResourceDescriptor where
  uuid : String
  friendlyName : Option String
  deriving DecidableEq, Repr

/-- The fields of `JobDescriptor` the emitter reads (`has_name`/`name`). -/
structure JobDescriptor where
  name : Option String
  deriving DecidableEq, Repr

/-- The fields of `TaskDescriptor` the emitter reads. -/
structure TaskDescriptor where
  uid : Nat
  index : Nat
  deriving DecidableEq, Repr

/-- `GenerateTrace::GetMachineId`.  `uuidHash` models `boost::hash_value` on
the resource UUID (a fixed pure function).  `none` models the `LOG(FATAL)` on
`lexical_cast` failure for a simulation-prefixed friendly name. -/
def getMachineId (uuidHash : String → Nat) (rd : ResourceDescriptor) :
    Option Nat :=
  match rd.friendlyName with
  | some fname =>
    if simMachineTag.isPrefixOf fname then
      (fname.drop simMachineTag.length).toNat?
    else some (hashCombine 42 (uuidHash rd.uuid))
  | none => some (hashCombine 42 (uuidHash rd.uuid))

/-- The `TaskRuntime` record accumulated per task.
Modelled from the spec: the struct's declaration lives in
misc/generate_trace.h, which is not under src/; the spec describes its fields
as accumulated counters (start_time, total_runtime, last_schedule_time,
runtime, num_runs), so `total_runtime` and `runtime` start at 0 — the other
fields are assigned explicitly by `TaskSubmitted`. -/
structure TaskRuntime where
  taskId : Nat
  startTime : Nat
  totalRuntime : Nat
  runtime : Nat
  lastScheduleTime : Nat
  numRuns : Nat
  deriving DecidableEq, Repr

/-- The emitter's accumulated maps. -/
structure TraceState where
  taskToJob : List (Nat × Nat)
  jobNumTasks : List (Nat × Nat)
  taskToRuntime : List (Nat × TaskRuntime)
  deriving DecidableEq, Repr

/-- One emitted CSV row. -/
inductive TraceRow
  | machineEvent (timestamp machineId eventType : Nat)
  | schedulerEvent (timestamp schedulerRuntime algorithmRuntime
      totalRuntime : Nat) (stats : String)
  | taskEvent (timestamp jobId traceTaskId eventType : Nat)
  | taskRuntimeRow (jobId taskId jobName startTime totalRuntime runtime
      numRuns : Nat)
  | jobNumTasksRow (jobId numTasks : Nat)
  deriving DecidableEq, Repr

/-- `GenerateTrace::AddMachine` (machine event code 0). -/
def traceAddMachine (flag : Bool) (uuidHash : String → Nat) (now : Nat)
    (st : TraceState) (rd : ResourceDescriptor) :
    Option (TraceState × List TraceRow) :=
  if flag then
    match getMachineId uuidHash rd with
    | none => none
    | some mid => some (st, [.machineEvent now mid 0])
  else some (st, [])

/-- `GenerateTrace::RemoveMachine` (machine event code 1). -/
def traceRemoveMachine (flag : Bool) (uuidHash : String → Nat) (now : Nat)
    (st : TraceState) (rd : ResourceDescriptor) :
    Option (TraceState × List TraceRow) :=
  if flag then
    match getMachineId uuidHash rd with
    | none => none
    | some mid => some (st, [.machineEvent now mid 1])
  else some (st, [])

/-- `GenerateTrace::SchedulerRun`. -/
def traceSchedulerRun (flag : Bool) (now : Nat) (st : TraceState)
    (schedulerRuntime algorithmRuntime totalRuntime : Nat) (stats : String) :
    Option (TraceState × List TraceRow) :=
  if flag then
    some (st, [.schedulerEvent now schedulerRuntime algorithmRuntime
                 totalRuntime stats])
  else some (st, [])

/-- `GenerateTrace::TaskSubmitted`.  In the non-simulation branch the code
executes `size_t hash = 42; boost::hash_combine(hash, job_id);` where the
local `job_id` is *uninitialised* at that point; `garbage` is that
indeterminate value.  The simulation branch parses the job id from the job
name and uses the task's `index()` as trace task id; the non-simulation
branch uses the Firmament task id. -/
def traceTaskSubmitted (flag : Bool) (garbage : Nat) (now : Nat)
    (st : TraceState) (jd : JobDescriptor) (td : TaskDescriptor) :
    Option (TraceState × List TraceRow) :=
  if flag then
    let ids : Option (Nat × Nat) :=
      match jd.name with
      | some jname =>
        if simJobTag.isPrefixOf jname then
          match (jname.drop simJobTag.length).toNat? with
          | none => none
          | some jid => some (jid, td.index)
        else some (hashCombine 42 garbage, td.uid)
      | none => some (hashCombine 42 garbage, td.uid)
    match ids with
    | none => none
    | some (jobId, traceTaskId) =>
      let inserted := (alookup st.taskToJob td.uid).isNone
      let taskToJob :=
        if inserted then aupd st.taskToJob td.uid jobId else st.taskToJob
      let jobNumTasks :=
        if inserted then
          match alookup st.jobNumTasks jobId with
          | none => aupd st.jobNumTasks jobId 1
          | some n => aupd st.jobNumTasks jobId (n + 1)
        else st.jobNumTasks
      let taskToRuntime :=
        match alookup st.taskToRuntime td.uid with
        | none =>
          aupd st.taskToRuntime td.uid
            { taskId := traceTaskId, startTime := now, totalRuntime := 0,
              runtime := 0, lastScheduleTime := 0, numRuns := 0 }
        | some _ => st.taskToRuntime
      some ({ taskToJob := taskToJob, jobNumTasks := jobNumTasks,
              taskToRuntime := taskToRuntime },
            [.taskEvent now jobId traceTaskId 0])
  else some (st, [])

/-- `GenerateTrace::TaskScheduled` (task event code 1): bump `num_runs`, set
`last_schedule_time`.  `none` models the `CHECK_NOTNULL`s on the map
lookups. -/
def traceTaskScheduled (flag : Bool) (now : Nat) (st : TraceState)
    (taskId : Nat) : Option (TraceState × List TraceRow) :=
  if flag then
    match alookup st.taskToJob taskId, alookup st.taskToRuntime taskId with
    | some jobId, some tr =>
      let tr' := { tr with numRuns := tr.numRuns + 1, lastScheduleTime := now }
      some ({ st with taskToRuntime := aupd st.taskToRuntime taskId tr' },
            [.taskEvent now jobId tr.taskId 1])
    | _, _ => none
  else some (st, [])

/-- Common body of the four terminal-event emitters `TaskCompleted` (code 4,
also records `runtime`), `TaskEvicted` (2), `TaskFailed` (3), `TaskKilled`
(5): emit the event row and add `timestamp - last_schedule_time` (wrapping
`uint64_t`) to `total_runtime`. -/
def traceTaskTerminal (eventCode : Nat) (recordsRuntime : Bool)
    (flag : Bool) (now : Nat) (st : TraceState) (taskId : Nat) :
    Option (TraceState × List TraceRow) :=
  if flag then
    match alookup st.taskToJob taskId, alookup st.taskToRuntime taskId with
    | some jobId, some tr =>
      let tr' :=
        { tr with
          totalRuntime :=
            (tr.totalRuntime + sub64 now tr.lastScheduleTime) % w64,
          runtime :=
            if recordsRuntime then sub64 now tr.lastScheduleTime
            else tr.runtime }
      some ({ st with taskToRuntime := aupd st.taskToRuntime taskId tr' },
            [.taskEvent now jobId tr.taskId eventCode])
    | _, _ => none
  else some (st, [])

/-- `GenerateTrace::TaskCompleted`. -/
def traceTaskCompleted : Bool → Nat → TraceState → Nat →
    Option (TraceState × List TraceRow) :=
  traceTaskTerminal 4 true

/-- `GenerateTrace::TaskEvicted`. -/
def traceTaskEvicted : Bool → Nat → TraceState → Nat →
    Option (TraceState × List TraceRow) :=
  traceTaskTerminal 2 false

/-- `GenerateTrace::TaskFailed`. -/
def traceTaskFailed : Bool → Nat → TraceState → Nat →
    Option (TraceState × List TraceRow) :=
  traceTaskTerminal 3 false

/-- `GenerateTrace::TaskKilled`. -/
def traceTaskKilled : Bool → Nat → TraceState → Nat →
    Option (TraceState × List TraceRow) :=
  traceTaskTerminal 5 false

/-- The `task_runtime_events` flush loop of `~GenerateTrace` (a missing
`task_to_job_` entry dereferences a null pointer: `none`).  The job id is
printed again as the job logical name. -/
def runtimeRows (taskToJob : List (Nat × Nat)) :
    List (Nat × TaskRuntime) → Option (List TraceRow)
  | [] => some []
  | (tid, tr) :: rest =>
    match alookup taskToJob tid with
    | none => none
    | some jobId =>
      (runtimeRows taskToJob rest).map fun rows =>
        .taskRuntimeRow jobId tid jobId tr.startTime tr.totalRuntime
          tr.runtime tr.numRuns :: rows

/-- The flush performed by `~GenerateTrace` when the flag is set: the
task-runtime rows followed by the jobs-num-tasks rows. -/
def traceShutdownRows (flag : Bool) (st : TraceState) :
    Option (List TraceRow) :=
  if flag then
    match runtimeRows st.taskToJob st.taskToRuntime with
    | none => none
    | some rows =>
      some (rows ++ st.jobNumTasks.map fun p => .jobNumTasksRow p.1 p.2)
  else some []

end Firmament

namespace Firmament

/-! ### Association-list lemmas -/

theorem alookup_aupd_self {β : Type} (l : List (Nat × β)) (k : Nat) (v : β) :
    alookup (aupd l k v) k = some v := by
  induction l with
  | nil => simp [aupd, alookup]
  | cons hd tl ih =>
    obtain ⟨k', v'⟩ := hd
    by_cases h : k' = k <;> simp [aupd, alookup, h, ih]

theorem alookup_aupd_ne {β : Type} (l : List (Nat × β)) (k k' : Nat) (v : β)
    (h : k ≠ k') : alookup (aupd l k v) k' = alookup l k' := by
  induction l with
  | nil => simp [aupd, alookup, h]
  | cons hd tl ih =>
    obtain ⟨k₀, v₀⟩ := hd
    by_cases h₀ : k₀ = k
    · subst h₀; simp [aupd, alookup, h]
    · simp [aupd, alookup, h₀, ih]

end Firmament

namespace Firmament

/-- C1: for every task with an entry in the bindings map at entry, the old
bound resource is read before the base handler runs, and `task_migrated` is
called with that pre-call binding as the `from` resource (whereas a lookup
made after the base handler would already return the new binding). -/
theorem handleTaskMigration_uses_precall_binding
    (st : FlowSchedState) (taskId newRes oldRes : Nat)
    (h : alookup st.taskBindings taskId = some oldRes) :
    ∃ st' : FlowSchedState,
      handleTaskMigration st taskId newRes =
        some (st', [FlowGraphCall.taskMigrated taskId oldRes newRes]) ∧
      alookup st'.taskBindings taskId = some newRes := by
  refine ⟨⟨eventDrivenHandleTaskMigration st.taskBindings taskId newRes⟩, ?_, ?_⟩
  · simp [handleTaskMigration, h]
  · simp [eventDrivenHandleTaskMigration, alookup_aupd_self]

/-- Witness for C1: a task bound to resource 10, migrated to resource 20,
produces a `task_migrated` call with `from = 10`. -/
theorem handleTaskMigration_uses_precall_binding_witness :
    ∃ st' : FlowSchedState,
      handleTaskMigration ⟨[(1, 10)]⟩ 1 20 =
        some (st', [FlowGraphCall.taskMigrated 1 10 20]) ∧
      alookup st'.taskBindings 1 = some 20 :=
  handleTaskMigration_uses_precall_binding ⟨[(1, 10)]⟩ 1 20 10 (by rfl)

/-- C6 (amended): the selector maps 0→Trivial, 1→Random, 2→SJF, 3→Quincy,
4→Whare, 5→Coco, 6→Octopus, and every other flag value — including 7 (VOID)
and 8 (SIMULATED QUINCY), which the `switch` does not handle — aborts the
constructor fatally (no silent fallback). -/
theorem selectCostModel_cases (flag : Int) :
    (selectCostModel 0 = some CostModelKind.Trivial ∧
     selectCostModel 1 = some CostModelKind.Random ∧
     selectCostModel 2 = some CostModelKind.SJF ∧
     selectCostModel 3 = some CostModelKind.Quincy ∧
     selectCostModel 4 = some CostModelKind.Whare ∧
     selectCostModel 5 = some CostModelKind.Coco ∧
     selectCostModel 6 = some CostModelKind.Octopus) ∧
    (flag < 0 ∨ 6 < flag → selectCostModel flag = none) := by
  refine ⟨⟨by decide, by decide, by decide, by decide, by decide, by decide,
            by decide⟩, ?_⟩
  intro h
  unfold selectCostModel
  split_ifs <;> first | rfl | omega

/-- Witness for C6 (amended): at flag value 7 the hypothesis holds and the
constructor aborts. -/
theorem selectCostModel_cases_witness :
    ((7 : Int) < 0 ∨ (6 : Int) < 7) ∧ selectCostModel 7 = none :=
  ⟨by decide, (selectCostModel_cases 7).2 (by decide)⟩

/-- Counterexample to C6 as stated: flag values 7 and 8 do not construct the
Void / SimulatedQuincy cost models — both reach the fatal `default` branch of
the `switch`. -/
theorem selectCostModel_seven_eight_fatal :
    selectCostModel 7 = none ∧ selectCostModel 8 = none := by
  constructor <;> decide

end Firmament

namespace Firmament

/-- C4: when every delta's task and resource resolve (otherwise the
`CHECK_NOTNULL`s abort), `ApplySchedulingDeltas` returns exactly the number
of PLACE deltas, marks every PLACE/PREEMPT/MIGRATE delta `actioned` (NOOPs
are skipped before `set_actioned`), and invokes the matching handler for each
non-NOOP delta in order. -/
theorem applySchedulingDeltas_spec (tk rk : Nat → Bool)
    (ds : List SchedulingDelta)
    (h : ∀ d ∈ ds, tk d.taskId = true ∧ rk d.resId = true) :
    applySchedulingDeltas tk rk ds =
      some (ds.countP (fun d => d.dtype == DeltaType.PLACE),
            ds.map (fun d => if d.dtype == DeltaType.NOOP then d
                             else { d with actioned := true }),
            ds.filterMap deltaAction) ∧
    ∀ d' ∈ ds.map (fun d => if d.dtype == DeltaType.NOOP then d
                            else { d with actioned := true }),
      d'.dtype ≠ DeltaType.NOOP → d'.actioned = true := by
  constructor
  · induction ds with
    | nil => rfl
    | cons d rest ih =>
      have hd := h d (List.mem_cons_self d rest)
      have hrest : ∀ d' ∈ rest, tk d'.taskId = true ∧ rk d'.resId = true :=
        fun d' hm => h d' (List.mem_cons_of_mem d hm)
      have hcond : (tk d.taskId && rk d.resId) = true := by
        rw [hd.1, hd.2]; rfl
      cases hdt : d.dtype <;>
        simp [applySchedulingDeltas, hcond, ih hrest, deltaAction, hdt,
              List.countP_cons]
  · intro d' hmem hne
    rcases List.mem_map.mp hmem with ⟨d, _, hEq⟩
    subst hEq
    by_cases hdt : d.dtype = DeltaType.NOOP
    · exact absurd (by simp [hdt]) hne
    · simp [hdt]

/-- Witness for C4: a list with one delta of each type; one PLACE delta, so
the return value is 1, and the three non-NOOP deltas come back actioned. -/
theorem applySchedulingDeltas_spec_witness :
    applySchedulingDeltas (fun _ => true) (fun _ => true)
        [⟨DeltaType.PLACE, 1, 11, false⟩, ⟨DeltaType.NOOP, 2, 12, false⟩,
         ⟨DeltaType.PREEMPT, 3, 13, false⟩, ⟨DeltaType.MIGRATE, 4, 14, false⟩] =
      some (1,
            [⟨DeltaType.PLACE, 1, 11, true⟩, ⟨DeltaType.NOOP, 2, 12, false⟩,
             ⟨DeltaType.PREEMPT, 3, 13, true⟩, ⟨DeltaType.MIGRATE, 4, 14, true⟩],
            [SchedulerAction.placed 1 11, SchedulerAction.evicted 3 13,
             SchedulerAction.migrated 4 14]) :=
  ((applySchedulingDeltas_spec (fun _ => true) (fun _ => true)
      [⟨DeltaType.PLACE, 1, 11, false⟩, ⟨DeltaType.NOOP, 2, 12, false⟩,
       ⟨DeltaType.PREEMPT, 3, 13, false⟩, ⟨DeltaType.MIGRATE, 4, 14, false⟩]
      (by decide)).1).trans (by decide)

end Firmament

namespace Firmament

theorem collectActiveJobs_eq_filter (l : List (Nat × JobState)) :
    collectActiveJobs l = (l.filter (fun p => jobActive p.2)).map Prod.fst := by
  induction l with
  | nil => rfl
  | cons hd tl ih =>
    obtain ⟨jid, s⟩ := hd
    by_cases h : jobActive s <;> simp [collectActiveJobs, h, ih, List.filter]

/-- C5 (amended): `update_time_dependent_costs` is invoked iff
`last_updated_time_dependent_costs_ ≤ now - freq` where the subtraction wraps
in `uint64` arithmetic (for `freq ≤ now` and `last ≤ now` this is equivalent
to `now - last ≥ freq`), and when invoked it receives exactly the jobs whose
state is not Completed, Failed or Aborted, in job-map order. -/
theorem timeDependentUpdateStep_iff (st : TimeDepState) (curTime freq : Nat)
    (jobs : List Nat) :
    (timeDependentUpdateStep st curTime freq).1 = some jobs ↔
      (st.lastUpdatedTimeDependentCosts ≤ sub64 curTime freq ∧
       jobs = (st.jobMap.filter (fun p => jobActive p.2)).map Prod.fst) := by
  unfold timeDependentUpdateStep
  split_ifs with hc
  · simp [collectActiveJobs_eq_filter, hc, eq_comm]
  · simp [hc]

/-- Counterexample to C5 as stated: with `now = 5`, `freq = 10`,
`last_updated = 0`, the claim's condition `now - last ≥ freq` (uint64) is
false — `5 - 0 = 5 < 10` — yet the code's guard
`last ≤ now - freq` underflows to `2^64 - 5` and fires, so
`update_time_dependent_costs` *is* invoked. -/
theorem timeDependentUpdateStep_counterexample :
    (timeDependentUpdateStep ⟨0, [(1, JobState.Running)]⟩ 5 10).1 = some [1] ∧
    ¬ (10 ≤ sub64 5 0) := by
  constructor
  · rfl
  · decide

end Firmament

namespace Firmament

/-! ### More association-list lemmas -/

theorem akeys_cons {β : Type} (k₀ : Nat) (v₀ : β) (tl : List (Nat × β)) :
    akeys ((k₀, v₀) :: tl) = k₀ :: akeys tl := rfl

theorem mem_akeys_cons {β : Type} (k₀ : Nat) (v₀ : β) (tl : List (Nat × β))
    (k : Nat) : k ∈ akeys ((k₀, v₀) :: tl) ↔ k = k₀ ∨ k ∈ akeys tl := by
  rw [akeys_cons]; exact List.mem_cons

theorem alookup_isSome_iff {β : Type} (l : List (Nat × β)) (m : Nat) :
    (alookup l m).isSome = true ↔ m ∈ akeys l := by
  induction l with
  | nil => simp [alookup, akeys]
  | cons hd tl ih =>
    obtain ⟨k, v⟩ := hd
    rw [mem_akeys_cons]
    by_cases h : k = m
    · simp [alookup, h]
    · have h' : ¬ m = k := fun hh => h hh.symm
      simp [alookup, h, h', ih]

theorem akeys_aupd_of_mem {β : Type} (l : List (Nat × β)) (k : Nat) (v : β)
    (h : k ∈ akeys l) : akeys (aupd l k v) = akeys l := by
  induction l with
  | nil => simp [akeys] at h
  | cons hd tl ih =>
    obtain ⟨k₀, v₀⟩ := hd
    by_cases h₀ : k₀ = k
    · simp [aupd, akeys, h₀]
    · have hk : k ∈ akeys tl := by
        rcases (mem_akeys_cons k₀ v₀ tl k).mp h with h' | h'
        · exact absurd h'.symm h₀
        · exact h'
      have hstep : aupd ((k₀, v₀) :: tl) k v = (k₀, v₀) :: aupd tl k v := by
        simp [aupd, h₀]
      rw [hstep, akeys_cons, akeys_cons, ih hk]

theorem akeys_aupd_of_not_mem {β : Type} (l : List (Nat × β)) (k : Nat) (v : β)
    (h : k ∉ akeys l) : akeys (aupd l k v) = akeys l ++ [k] := by
  induction l with
  | nil => simp [aupd, akeys]
  | cons hd tl ih =>
    obtain ⟨k₀, v₀⟩ := hd
    have h₀ : k₀ ≠ k := by
      intro hEq
      exact h ((mem_akeys_cons k₀ v₀ tl k).mpr (Or.inl hEq.symm))
    have htl : k ∉ akeys tl := fun hm =>
      h ((mem_akeys_cons k₀ v₀ tl k).mpr (Or.inr hm))
    have hstep : aupd ((k₀, v₀) :: tl) k v = (k₀, v₀) :: aupd tl k v := by
      simp [aupd, h₀]
    rw [hstep, akeys_cons, akeys_cons, ih htl]
    rfl

theorem nodup_akeys_aupd {β : Type} (l : List (Nat × β)) (k : Nat) (v : β)
    (h : (akeys l).Nodup) : (akeys (aupd l k v)).Nodup := by
  by_cases hm : k ∈ akeys l
  · rw [akeys_aupd_of_mem l k v hm]; exact h
  · rw [akeys_aupd_of_not_mem l k v hm]
    simpa [List.nodup_append] using ⟨h, fun hk => hm hk⟩

theorem alookup_map_value {β γ : Type} (f : β → γ) (l : List (Nat × β))
    (k : Nat) :
    alookup (l.map fun p => (p.1, f p.2)) k = (alookup l k).map f := by
  induction l with
  | nil => rfl
  | cons hd tl ih =>
    obtain ⟨k₀, v₀⟩ := hd
    by_cases h : k₀ = k <;> simp [alookup, h, ih]

theorem not_mem_akeys_aerase {β : Type} (l : List (Nat × β)) (k : Nat) :
    k ∉ akeys (aerase l k) := by
  intro hm
  rcases (by simpa [akeys] using hm : ∃ p ∈ aerase l k, p.1 = k) with ⟨p, hp, hpk⟩
  have := List.of_mem_filter hp
  simp [hpk] at this

end Firmament

namespace Firmament

/-- C8: after `RemoveMachine(m)`, no task's `GetTaskPreferenceArcs` contains
`m` — the removal erases the machine from every task's preferred-machine
map. -/
theorem sqRemoveMachine_drops_preference_arcs (st : SQState)
    (resId taskId : Nat) :
    resId ∉ getTaskPreferenceArcs (sqRemoveMachine st resId) taskId := by
  unfold getTaskPreferenceArcs sqRemoveMachine alookupD
  rw [alookup_map_value (fun pm => aerase pm resId) st.preferredMachineMap taskId]
  cases h : alookup st.preferredMachineMap taskId with
  | none => simp [akeys]
  | some pm => simpa using not_mem_akeys_aerase pm resId

end Firmament

namespace Firmament

/-! ### Accumulation-loop characterisations -/

theorem accumMachines_mf_lookup (m2r : Nat → Nat) (nb : Nat) (ms : List Nat)
    (mf : List (Nat × Nat)) (racks : List Nat) (m : Nat) (hnd : ms.Nodup) :
    alookupD (accumMachines m2r nb ms mf racks).1 m 0 =
      if m ∈ ms then alookupD mf m 0 % w32 + nb else alookupD mf m 0 := by
  induction ms generalizing mf racks with
  | nil => simp [accumMachines]
  | cons a rest ih =>
    have hnd' : rest.Nodup := hnd.of_cons
    have ha : a ∉ rest := by
      have := List.nodup_cons.mp hnd
      exact this.1
    by_cases hm : m = a
    · subst hm
      rw [show accumMachines m2r nb (m :: rest) mf racks =
            accumMachines m2r nb rest
              (aupd mf m (alookupD mf m 0 % w32 + nb))
              (if m2r m ∈ racks then racks else racks ++ [m2r m]) from rfl]
      rw [ih _ _ hnd']
      simp [ha, alookupD, alookup_aupd_self]
    · rw [show accumMachines m2r nb (a :: rest) mf racks =
            accumMachines m2r nb rest
              (aupd mf a (alookupD mf a 0 % w32 + nb))
              (if m2r a ∈ racks then racks else racks ++ [m2r a]) from rfl]
      rw [ih _ _ hnd']
      have hne : a ≠ m := fun hh => hm hh.symm
      have : alookupD (aupd mf a (alookupD mf a 0 % w32 + nb)) m 0 =
          alookupD mf m 0 := by
        simp [alookupD, alookup_aupd_ne _ _ _ _ hne]
      rw [this]
      simp [List.mem_cons, hm]

theorem accumMachines_racks_mem (m2r : Nat → Nat) (nb : Nat) (ms : List Nat)
    (mf : List (Nat × Nat)) (racks : List Nat) (r : Nat) :
    r ∈ (accumMachines m2r nb ms mf racks).2 ↔
      r ∈ racks ∨ ∃ m ∈ ms, m2r m = r := by
  induction ms generalizing mf racks with
  | nil => simp [accumMachines]
  | cons a rest ih =>
    rw [show accumMachines m2r nb (a :: rest) mf racks =
          accumMachines m2r nb rest
            (aupd mf a (alookupD mf a 0 % w32 + nb))
            (if m2r a ∈ racks then racks else racks ++ [m2r a]) from rfl]
    rw [ih]
    by_cases hh : m2r a ∈ racks
    · simp only [if_pos hh]
      constructor
      · rintro (h | h)
        · exact Or.inl h
        · exact Or.inr (by rcases h with ⟨m, hm, hmr⟩; exact ⟨m, by simp [hm], hmr⟩)
      · rintro (h | ⟨m, hm, hmr⟩)
        · exact Or.inl h
        · rcases List.mem_cons.mp hm with hma | hma
          · subst hma; exact Or.inl (hmr ▸ hh)
          · exact Or.inr ⟨m, hma, hmr⟩
    · simp only [if_neg hh]
      constructor
      · rintro (h | h)
        · rcases List.mem_append.mp h with h' | h'
          · exact Or.inl h'
          · refine Or.inr ⟨a, by simp, ?_⟩
            have : r = m2r a := by simpa using h'
            exact this.symm
        · rcases h with ⟨m, hm, hmr⟩
          exact Or.inr ⟨m, by simp [hm], hmr⟩
      · rintro (h | ⟨m, hm, hmr⟩)
        · exact Or.inl (List.mem_append.mpr (Or.inl h))
        · rcases List.mem_cons.mp hm with hma | hma
          · subst hma
            exact Or.inl (List.mem_append.mpr (Or.inr (by simp [hmr])))
          · exact Or.inr ⟨m, hma, hmr⟩

theorem accumMachines_racks_nodup (m2r : Nat → Nat) (nb : Nat) (ms : List Nat)
    (mf : List (Nat × Nat)) (racks : List Nat) (h : racks.Nodup) :
    (accumMachines m2r nb ms mf racks).2.Nodup := by
  induction ms generalizing mf racks with
  | nil => simpa [accumMachines] using h
  | cons a rest ih =>
    rw [show accumMachines m2r nb (a :: rest) mf racks =
          accumMachines m2r nb rest
            (aupd mf a (alookupD mf a 0 % w32 + nb))
            (if m2r a ∈ racks then racks else racks ++ [m2r a]) from rfl]
    apply ih
    by_cases hh : m2r a ∈ racks
    · simpa [hh] using h
    · simp only [if_neg hh]
      simpa [List.nodup_append] using ⟨h, fun hx => hh hx⟩

theorem accumMachines_mf_nodup (m2r : Nat → Nat) (nb : Nat) (ms : List Nat)
    (mf : List (Nat × Nat)) (racks : List Nat) (h : (akeys mf).Nodup) :
    (akeys (accumMachines m2r nb ms mf racks).1).Nodup := by
  induction ms generalizing mf racks with
  | nil => simpa [accumMachines] using h
  | cons a rest ih =>
    rw [show accumMachines m2r nb (a :: rest) mf racks =
          accumMachines m2r nb rest
            (aupd mf a (alookupD mf a 0 % w32 + nb))
            (if m2r a ∈ racks then racks else racks ++ [m2r a]) from rfl]
    exact ih _ _ (nodup_akeys_aupd _ _ _ h)

theorem accumRacks_lookup (nb : Nat) (rs : List Nat) (rf : List (Nat × Nat))
    (r : Nat) (hnd : rs.Nodup) :
    alookupD (accumRacks nb rs rf) r 0 =
      if r ∈ rs then alookupD rf r 0 + nb else alookupD rf r 0 := by
  induction rs generalizing rf with
  | nil => simp [accumRacks]
  | cons a rest ih =>
    have hnd' : rest.Nodup := hnd.of_cons
    have ha : a ∉ rest := (List.nodup_cons.mp hnd).1
    by_cases hr : r = a
    · subst hr
      rw [show accumRacks nb (r :: rest) rf =
            accumRacks nb rest (aupd rf r (alookupD rf r 0 + nb)) from rfl]
      rw [ih _ hnd']
      simp [ha, alookupD, alookup_aupd_self]
    · rw [show accumRacks nb (a :: rest) rf =
            accumRacks nb rest (aupd rf a (alookupD rf a 0 + nb)) from rfl]
      rw [ih _ hnd']
      have hne : a ≠ r := fun hh => hr hh.symm
      have : alookupD (aupd rf a (alookupD rf a 0 + nb)) r 0 =
          alookupD rf r 0 := by
        simp [alookupD, alookup_aupd_ne _ _ _ _ hne]
      rw [this]
      simp [List.mem_cons, hr]

theorem accumRacks_nodup (nb : Nat) (rs : List Nat) (rf : List (Nat × Nat))
    (h : (akeys rf).Nodup) : (akeys (accumRacks nb rs rf)).Nodup := by
  induction rs generalizing rf with
  | nil => simpa [accumRacks] using h
  | cons a rest ih =>
    rw [show accumRacks nb (a :: rest) rf =
          accumRacks nb rest (aupd rf a (alookupD rf a 0 + nb)) from rfl]
    exact ih _ (nodup_akeys_aupd _ _ _ h)

end Firmament

namespace Firmament

/-! ### Frequency invariants of the accumulation

For every reachable `(machine_frequency, rack_frequency, total)` state:
each rack frequency is bounded by the total (each file adds its blocks to a
rack at most once, thanks to the dedup set), and each machine frequency is
bounded by the frequency of the machine's rack (each file listing the machine
also adds the same blocks to its rack; the file's machine set is
duplicate-free). -/

theorem accumFile_rack_le_total (m2r : Nat → Nat)
    (st : List (Nat × Nat) × List (Nat × Nat) × Nat) (f : SQFile)
    (h2 : ∀ r, alookupD st.2.1 r 0 ≤ st.2.2) :
    ∀ r, alookupD (accumFile m2r st f).2.1 r 0 ≤ (accumFile m2r st f).2.2 := by
  intro r
  have hraN : ((accumMachines m2r f.numBlocks f.machines st.1 []).2).Nodup :=
    accumMachines_racks_nodup _ _ _ _ _ List.nodup_nil
  show alookupD (accumRacks f.numBlocks
      (accumMachines m2r f.numBlocks f.machines st.1 []).2 st.2.1) r 0 ≤
    st.2.2 + f.numBlocks
  rw [accumRacks_lookup _ _ _ _ hraN]
  split_ifs with hr
  · exact Nat.add_le_add_right (h2 r) _
  · exact le_trans (h2 r) (Nat.le_add_right _ _)

theorem accumFile_machine_le_rack (m2r : Nat → Nat)
    (st : List (Nat × Nat) × List (Nat × Nat) × Nat) (f : SQFile)
    (hf : f.machines.Nodup)
    (h1 : ∀ m, alookupD st.1 m 0 ≤ alookupD st.2.1 (m2r m) 0) :
    ∀ m, alookupD (accumFile m2r st f).1 m 0 ≤
         alookupD (accumFile m2r st f).2.1 (m2r m) 0 := by
  intro m
  have hraN : ((accumMachines m2r f.numBlocks f.machines st.1 []).2).Nodup :=
    accumMachines_racks_nodup _ _ _ _ _ List.nodup_nil
  show alookupD (accumMachines m2r f.numBlocks f.machines st.1 []).1 m 0 ≤
    alookupD (accumRacks f.numBlocks
      (accumMachines m2r f.numBlocks f.machines st.1 []).2 st.2.1) (m2r m) 0
  rw [accumMachines_mf_lookup _ _ _ _ _ _ hf, accumRacks_lookup _ _ _ _ hraN]
  by_cases hm : m ∈ f.machines
  · have hrk : m2r m ∈ (accumMachines m2r f.numBlocks f.machines st.1 []).2 :=
      (accumMachines_racks_mem m2r f.numBlocks f.machines st.1 [] (m2r m)).mpr
        (Or.inr ⟨m, hm, rfl⟩)
    rw [if_pos hm, if_pos hrk]
    have hmod : alookupD st.1 m 0 % w32 ≤ alookupD st.1 m 0 := Nat.mod_le _ _
    exact Nat.add_le_add_right (le_trans hmod (h1 m)) _
  · rw [if_neg hm]
    split_ifs with hrk
    · exact le_trans (h1 m) (Nat.le_add_right _ _)
    · exact h1 m

theorem foldl_accumFile_rack_le (m2r : Nat → Nat) :
    ∀ (files : List SQFile) (st : List (Nat × Nat) × List (Nat × Nat) × Nat),
    (∀ r, alookupD st.2.1 r 0 ≤ st.2.2) →
    ∀ r, alookupD (files.foldl (accumFile m2r) st).2.1 r 0 ≤
         (files.foldl (accumFile m2r) st).2.2
  | [], _, h => h
  | f :: rest, st, h =>
    foldl_accumFile_rack_le m2r rest (accumFile m2r st f)
      (accumFile_rack_le_total m2r st f h)

theorem foldl_accumFile_machine_le (m2r : Nat → Nat) :
    ∀ (files : List SQFile) (st : List (Nat × Nat) × List (Nat × Nat) × Nat),
    (∀ f ∈ files, f.machines.Nodup) →
    (∀ m, alookupD st.1 m 0 ≤ alookupD st.2.1 (m2r m) 0) →
    ∀ m, alookupD (files.foldl (accumFile m2r) st).1 m 0 ≤
         alookupD (files.foldl (accumFile m2r) st).2.1 (m2r m) 0
  | [], _, _, h => h
  | f :: rest, st, hnd, h =>
    foldl_accumFile_machine_le m2r rest (accumFile m2r st f)
      (fun g hg => hnd g (List.mem_cons_of_mem f hg))
      (accumFile_machine_le_rack m2r st f (hnd f (List.mem_cons_self f rest)) h)

theorem foldl_accumFile_nodup (m2r : Nat → Nat) :
    ∀ (files : List SQFile) (st : List (Nat × Nat) × List (Nat × Nat) × Nat),
    (akeys st.1).Nodup → (akeys st.2.1).Nodup →
    (akeys (files.foldl (accumFile m2r) st).1).Nodup ∧
    (akeys (files.foldl (accumFile m2r) st).2.1).Nodup
  | [], _, h1, h2 => ⟨h1, h2⟩
  | f :: rest, st, h1, h2 =>
    foldl_accumFile_nodup m2r rest (accumFile m2r st f)
      (accumMachines_mf_nodup _ _ _ _ _ h1)
      (accumRacks_nodup _ _ _ h2)

/-- `machine_frequency` of a complete accumulation is bounded by the
frequency of the machine's rack. -/
theorem accumFiles_machine_le_rack (m2r : Nat → Nat) (files : List SQFile)
    (hnd : ∀ f ∈ files, f.machines.Nodup) (m : Nat) :
    alookupD (accumFiles m2r files).1 m 0 ≤
      alookupD (accumFiles m2r files).2.1 (m2r m) 0 :=
  foldl_accumFile_machine_le m2r files ([], [], 0) hnd
    (fun _ => le_refl 0) m

/-- `rack_frequency` of a complete accumulation is bounded by
`total_num_blocks`. -/
theorem accumFiles_rack_le_total (m2r : Nat → Nat) (files : List SQFile)
    (r : Nat) :
    alookupD (accumFiles m2r files).2.1 r 0 ≤ (accumFiles m2r files).2.2 :=
  foldl_accumFile_rack_le m2r files ([], [], 0) (fun _ => le_refl 0) r

/-- The keys of both accumulated frequency maps are duplicate-free. -/
theorem accumFiles_nodup (m2r : Nat → Nat) (files : List SQFile) :
    (akeys (accumFiles m2r files).1).Nodup ∧
    (akeys (accumFiles m2r files).2.1).Nodup :=
  foldl_accumFile_nodup m2r files ([], [], 0) List.nodup_nil List.nodup_nil

end Firmament

namespace Firmament

/-! ### Lookup characterisation of the preference maps -/

theorem alookup_filterMap_keyed {γ : Type} (g : Nat × Nat → Option (Nat × γ))
    (hg : ∀ p q, g p = some q → q.1 = p.1) (l : List (Nat × Nat)) (m : Nat)
    (hm : m ∉ akeys l) : alookup (l.filterMap g) m = none := by
  induction l with
  | nil => rfl
  | cons p rest ih =>
    obtain ⟨k, v⟩ := p
    have hk : m ≠ k := fun hh => hm ((mem_akeys_cons k v rest m).mpr (Or.inl hh))
    have hrest : m ∉ akeys rest := fun hh =>
      hm ((mem_akeys_cons k v rest m).mpr (Or.inr hh))
    rw [List.filterMap_cons]
    cases hgp : g (k, v) with
    | none => exact ih hrest
    | some q =>
      obtain ⟨q1, q2⟩ := q
      have hq : q1 = k := hg _ _ hgp
      subst hq
      rw [show alookup ((q1, q2) :: List.filterMap g rest) m =
            if q1 = m then some q2 else alookup (List.filterMap g rest) m
          from rfl]
      rw [if_neg (fun hh => hk hh.symm)]
      exact ih hrest

theorem alookup_preferredMachinesOf (cfg : SQConfig) (m2r : Nat → Nat)
    (rf : List (Nat × Nat)) (total : Nat) (mf : List (Nat × Nat))
    (hn : (akeys mf).Nodup) (m : Nat) :
    alookup (preferredMachinesOf cfg m2r rf total mf) m =
      (alookup mf m).bind fun fq =>
        if cfg.deltaPreferredMachine ≤ (fq : ℚ) / (total : ℚ) then
          some (sqMachineCost cfg m2r rf total m fq)
        else none := by
  have hgkey : ∀ (p : Nat × Nat) (q : Nat × Int),
      (if cfg.deltaPreferredMachine ≤ (p.2 : ℚ) / (total : ℚ) then
         some (p.1, sqMachineCost cfg m2r rf total p.1 p.2) else none) = some q →
      q.1 = p.1 := by
    intro p q h
    split_ifs at h
    injection h with h'
    rw [← h']
  induction mf with
  | nil => rfl
  | cons p rest ih =>
    obtain ⟨k, fq⟩ := p
    have hn' : (akeys rest).Nodup := by
      rw [akeys_cons] at hn; exact hn.of_cons
    have hknotin : k ∉ akeys rest := by
      rw [akeys_cons] at hn; exact (List.nodup_cons.mp hn).1
    by_cases hcond : cfg.deltaPreferredMachine ≤ (fq : ℚ) / (total : ℚ)
    · have hstep : preferredMachinesOf cfg m2r rf total ((k, fq) :: rest) =
          (k, sqMachineCost cfg m2r rf total k fq) ::
            preferredMachinesOf cfg m2r rf total rest := by
        unfold preferredMachinesOf
        rw [List.filterMap_cons]
        simp [hcond]
      rw [hstep]
      by_cases hk : k = m
      · subst hk
        rw [show alookup ((k, sqMachineCost cfg m2r rf total k fq) ::
              preferredMachinesOf cfg m2r rf total rest) k =
            some (sqMachineCost cfg m2r rf total k fq) from by simp [alookup]]
        rw [show alookup ((k, fq) :: rest) k = some fq from by simp [alookup]]
        simp [hcond]
      · rw [show alookup ((k, sqMachineCost cfg m2r rf total k fq) ::
              preferredMachinesOf cfg m2r rf total rest) m =
            alookup (preferredMachinesOf cfg m2r rf total rest) m
            from by simp [alookup, hk]]
        rw [show alookup ((k, fq) :: rest) m = alookup rest m
            from by simp [alookup, hk]]
        exact ih hn'
    · have hstep : preferredMachinesOf cfg m2r rf total ((k, fq) :: rest) =
          preferredMachinesOf cfg m2r rf total rest := by
        unfold preferredMachinesOf
        rw [List.filterMap_cons]
        simp [hcond]
      rw [hstep]
      by_cases hk : k = m
      · subst hk
        rw [show alookup ((k, fq) :: rest) k = some fq from by simp [alookup]]
        rw [show preferredMachinesOf cfg m2r rf total rest =
              List.filterMap (fun p =>
                if cfg.deltaPreferredMachine ≤ (p.2 : ℚ) / (total : ℚ) then
                  some (p.1, sqMachineCost cfg m2r rf total p.1 p.2)
                else none) rest from rfl]
        rw [alookup_filterMap_keyed _ hgkey rest k hknotin]
        simp [hcond]
      · rw [show alookup ((k, fq) :: rest) m = alookup rest m
            from by simp [alookup, hk]]
        exact ih hn'

theorem alookup_preferredRacksOf (cfg : SQConfig) (total : Nat)
    (rf : List (Nat × Nat)) (hn : (akeys rf).Nodup) (r : Nat) :
    alookup (preferredRacksOf cfg total rf) r =
      (alookup rf r).bind fun fq =>
        if cfg.deltaPreferredRack < (fq : ℚ) / (total : ℚ) then
          some (sqRackCost cfg total fq)
        else none := by
  have hgkey : ∀ (p : Nat × Nat) (q : Nat × Int),
      (if cfg.deltaPreferredRack < (p.2 : ℚ) / (total : ℚ) then
         some (p.1, sqRackCost cfg total p.2) else none) = some q →
      q.1 = p.1 := by
    intro p q h
    split_ifs at h
    injection h with h'
    rw [← h']
  induction rf with
  | nil => rfl
  | cons p rest ih =>
    obtain ⟨k, fq⟩ := p
    have hn' : (akeys rest).Nodup := by
      rw [akeys_cons] at hn; exact hn.of_cons
    have hknotin : k ∉ akeys rest := by
      rw [akeys_cons] at hn; exact (List.nodup_cons.mp hn).1
    by_cases hcond : cfg.deltaPreferredRack < (fq : ℚ) / (total : ℚ)
    · have hstep : preferredRacksOf cfg total ((k, fq) :: rest) =
          (k, sqRackCost cfg total fq) :: preferredRacksOf cfg total rest := by
        unfold preferredRacksOf
        rw [List.filterMap_cons]
        simp [hcond]
      rw [hstep]
      by_cases hk : k = r
      · subst hk
        rw [show alookup ((k, sqRackCost cfg total fq) ::
              preferredRacksOf cfg total rest) k =
            some (sqRackCost cfg total fq) from by simp [alookup]]
        rw [show alookup ((k, fq) :: rest) k = some fq from by simp [alookup]]
        simp [hcond]
      · rw [show alookup ((k, sqRackCost cfg total fq) ::
              preferredRacksOf cfg total rest) r =
            alookup (preferredRacksOf cfg total rest) r
            from by simp [alookup, hk]]
        rw [show alookup ((k, fq) :: rest) r = alookup rest r
            from by simp [alookup, hk]]
        exact ih hn'
    · have hstep : preferredRacksOf cfg total ((k, fq) :: rest) =
          preferredRacksOf cfg total rest := by
        unfold preferredRacksOf
        rw [List.filterMap_cons]
        simp [hcond]
      rw [hstep]
      by_cases hk : k = r
      · subst hk
        rw [show alookup ((k, fq) :: rest) k = some fq from by simp [alookup]]
        rw [show preferredRacksOf cfg total rest =
              List.filterMap (fun p =>
                if cfg.deltaPreferredRack < (p.2 : ℚ) / (total : ℚ) then
                  some (p.1, sqRackCost cfg total p.2)
                else none) rest from rfl]
        rw [alookup_filterMap_keyed _ hgkey rest k hknotin]
        simp [hcond]
      · rw [show alookup ((k, fq) :: rest) r = alookup rest r
            from by simp [alookup, hk]]
        exact ih hn'

end Firmament

namespace Firmament

/-- C2 (amended): after `AddTask`, a machine `m` is a preference arc iff
`machine_frequency[m] / total_blocks ≥ delta_preferred_machine` (proportions
over `ℚ`, frequency defaulting to 0 for unseen machines), and the cost of a
preferred machine is
`(total − rack_blocks(rack(m))) · core_transfer_cost +
 (rack_blocks(rack(m)) − machine_frequency[m]) · tor_transfer_cost`
— the code folds the machine's own blocks into the core term via
`num_core_blocks = total - (rack_blocks - local) - local = total - rack_blocks`.
Hypotheses: the threshold is positive (it is a fraction in (0,1]) and each
sampled file's machine set is duplicate-free (it is an `unordered_set`). -/
theorem sq_machine_preferences (cfg : SQConfig) (m2r : Nat → Nat)
    (st : SQState) (taskId : Nat) (files : List SQFile) (m : Nat)
    (hδ : 0 < cfg.deltaPreferredMachine)
    (hnd : ∀ f ∈ files, f.machines.Nodup) :
    (m ∈ getTaskPreferenceArcs (sqAddTask cfg m2r st taskId files) taskId ↔
       cfg.deltaPreferredMachine ≤
         ((alookupD (accumFiles m2r files).1 m 0 : Nat) : ℚ) /
           ((accumFiles m2r files).2.2 : ℚ)) ∧
    (m ∈ getTaskPreferenceArcs (sqAddTask cfg m2r st taskId files) taskId →
       taskToResourceNodeCost (sqAddTask cfg m2r st taskId files) taskId m =
         (((accumFiles m2r files).2.2 : Int) -
            ((alookupD (accumFiles m2r files).2.1 (m2r m) 0 : Nat) : Int)) *
           cfg.coreTransferCost +
         (((alookupD (accumFiles m2r files).2.1 (m2r m) 0 : Nat) : Int) -
            ((alookupD (accumFiles m2r files).1 m 0 : Nat) : Int)) *
           cfg.torTransferCost) := by
  obtain ⟨hmfN, hrfN⟩ := accumFiles_nodup m2r files
  have harcs : getTaskPreferenceArcs (sqAddTask cfg m2r st taskId files) taskId
      = akeys (preferredMachinesOf cfg m2r (accumFiles m2r files).2.1
          (accumFiles m2r files).2.2 (accumFiles m2r files).1) := by
    unfold getTaskPreferenceArcs sqAddTask computeCostsAndPreferredSet alookupD
    rw [alookup_aupd_self]
    rfl
  have hlook := alookup_preferredMachinesOf cfg m2r (accumFiles m2r files).2.1
      (accumFiles m2r files).2.2 (accumFiles m2r files).1 hmfN m
  have hcost : ∀ c, alookup (preferredMachinesOf cfg m2r
        (accumFiles m2r files).2.1 (accumFiles m2r files).2.2
        (accumFiles m2r files).1) m = some c →
      taskToResourceNodeCost (sqAddTask cfg m2r st taskId files) taskId m = c := by
    intro c hc
    unfold taskToResourceNodeCost sqAddTask computeCostsAndPreferredSet alookupD
    rw [alookup_aupd_self]
    simp [alookupD, hc]
  constructor
  · rw [harcs, ← alookup_isSome_iff, hlook]
    cases hmf : alookup (accumFiles m2r files).1 m with
    | none =>
      have hD : alookupD (accumFiles m2r files).1 m 0 = 0 := by
        simp [alookupD, hmf]
      rw [hD]
      simp only [Option.none_bind, Option.isSome_none, Nat.cast_zero,
        zero_div]
      constructor
      · intro h; cases h
      · intro h
        exact absurd (lt_of_lt_of_le hδ h) (lt_irrefl 0)
    | some fq =>
      have hD : alookupD (accumFiles m2r files).1 m 0 = fq := by
        simp [alookupD, hmf]
      rw [hD]
      simp only [Option.some_bind]
      by_cases hcond : cfg.deltaPreferredMachine ≤
          (fq : ℚ) / ((accumFiles m2r files).2.2 : ℚ)
      · simp [hcond]
      · simp [hcond]
  · intro hmem
    rw [harcs, ← alookup_isSome_iff, hlook] at hmem
    cases hmf : alookup (accumFiles m2r files).1 m with
    | none => rw [hmf] at hmem; simp at hmem
    | some fq =>
      rw [hmf] at hmem
      simp only [Option.some_bind] at hmem
      by_cases hcond : cfg.deltaPreferredMachine ≤
          (fq : ℚ) / ((accumFiles m2r files).2.2 : ℚ)
      · have hc : alookup (preferredMachinesOf cfg m2r
            (accumFiles m2r files).2.1 (accumFiles m2r files).2.2
            (accumFiles m2r files).1) m =
            some (sqMachineCost cfg m2r (accumFiles m2r files).2.1
              (accumFiles m2r files).2.2 m fq) := by
          rw [hlook, hmf]
          simp [hcond]
        rw [hcost _ hc]
        have hD : alookupD (accumFiles m2r files).1 m 0 = fq := by
          simp [alookupD, hmf]
        have h1 : fq ≤ alookupD (accumFiles m2r files).2.1 (m2r m) 0 := by
          have h' := accumFiles_machine_le_rack m2r files hnd m
          rw [hD] at h'
          exact h'
        have h2 := accumFiles_rack_le_total m2r files (m2r m)
        rw [hD]
        simp only [sqMachineCost]
        have e1 : ((alookupD (accumFiles m2r files).2.1 (m2r m) 0 - fq : Nat) :
            Int) = ((alookupD (accumFiles m2r files).2.1 (m2r m) 0 : Nat) : Int) - fq := by
          omega
        have e2 : (((accumFiles m2r files).2.2 -
            (alookupD (accumFiles m2r files).2.1 (m2r m) 0 - fq) - fq : Nat) :
            Int) = ((accumFiles m2r files).2.2 : Int) -
              ((alookupD (accumFiles m2r files).2.1 (m2r m) 0 : Nat) : Int) := by
          omega
        rw [e1, e2]
      · rw [if_neg hcond] at hmem
        simp at hmem

/-- C7: after `AddTask`, a rack `r` is an equivalence class of the task iff
`rack_frequency[r] / total_blocks > delta_preferred_rack` (strict, proportions
over `ℚ`), its cost is
`(total − rack_blocks(r)) · core_transfer_cost +
 rack_blocks(r) · tor_transfer_cost`, and the task's cluster-aggregator cost
is `total_blocks · core_transfer_cost`.  Hypothesis: the threshold is
non-negative (it is a fraction in (0,1]). -/
theorem sq_rack_preferences (cfg : SQConfig) (m2r : Nat → Nat)
    (st : SQState) (taskId : Nat) (files : List SQFile) (r : Nat)
    (hδ : 0 ≤ cfg.deltaPreferredRack) :
    (r ∈ getTaskEquivClasses (sqAddTask cfg m2r st taskId files) taskId ↔
       cfg.deltaPreferredRack <
         ((alookupD (accumFiles m2r files).2.1 r 0 : Nat) : ℚ) /
           ((accumFiles m2r files).2.2 : ℚ)) ∧
    (r ∈ getTaskEquivClasses (sqAddTask cfg m2r st taskId files) taskId →
       taskToEquivClassAggregator (sqAddTask cfg m2r st taskId files) taskId r =
         (((accumFiles m2r files).2.2 : Int) -
            ((alookupD (accumFiles m2r files).2.1 r 0 : Nat) : Int)) *
           cfg.coreTransferCost +
         ((alookupD (accumFiles m2r files).2.1 r 0 : Nat) : Int) *
           cfg.torTransferCost) ∧
    taskToClusterAggCost (sqAddTask cfg m2r st taskId files) taskId =
      ((accumFiles m2r files).2.2 : Int) * cfg.coreTransferCost := by
  obtain ⟨hmfN, hrfN⟩ := accumFiles_nodup m2r files
  have hecs : getTaskEquivClasses (sqAddTask cfg m2r st taskId files) taskId
      = akeys (preferredRacksOf cfg (accumFiles m2r files).2.2
          (accumFiles m2r files).2.1) := by
    unfold getTaskEquivClasses sqAddTask computeCostsAndPreferredSet alookupD
    rw [alookup_aupd_self]
    rfl
  have hlook := alookup_preferredRacksOf cfg (accumFiles m2r files).2.2
      (accumFiles m2r files).2.1 hrfN r
  have hcost : ∀ c, alookup (preferredRacksOf cfg (accumFiles m2r files).2.2
        (accumFiles m2r files).2.1) r = some c →
      taskToEquivClassAggregator (sqAddTask cfg m2r st taskId files) taskId r
        = c := by
    intro c hc
    unfold taskToEquivClassAggregator sqAddTask computeCostsAndPreferredSet
      alookupD
    rw [alookup_aupd_self]
    simp [alookupD, hc]
  refine ⟨?_, ?_, ?_⟩
  · rw [hecs, ← alookup_isSome_iff, hlook]
    cases hrf : alookup (accumFiles m2r files).2.1 r with
    | none =>
      have hD : alookupD (accumFiles m2r files).2.1 r 0 = 0 := by
        simp [alookupD, hrf]
      rw [hD]
      simp only [Option.none_bind, Option.isSome_none, Nat.cast_zero,
        zero_div]
      constructor
      · intro h; cases h
      · intro h
        exact absurd (lt_of_le_of_lt hδ h) (lt_irrefl 0)
    | some fq =>
      have hD : alookupD (accumFiles m2r files).2.1 r 0 = fq := by
        simp [alookupD, hrf]
      rw [hD]
      simp only [Option.some_bind]
      by_cases hcond : cfg.deltaPreferredRack <
          (fq : ℚ) / ((accumFiles m2r files).2.2 : ℚ)
      · simp [hcond]
      · simp [hcond]
  · intro hmem
    rw [hecs, ← alookup_isSome_iff, hlook] at hmem
    cases hrf : alookup (accumFiles m2r files).2.1 r with
    | none => rw [hrf] at hmem; simp at hmem
    | some fq =>
      rw [hrf] at hmem
      simp only [Option.some_bind] at hmem
      by_cases hcond : cfg.deltaPreferredRack <
          (fq : ℚ) / ((accumFiles m2r files).2.2 : ℚ)
      · have hc : alookup (preferredRacksOf cfg (accumFiles m2r files).2.2
            (accumFiles m2r files).2.1) r =
            some (sqRackCost cfg (accumFiles m2r files).2.2 fq) := by
          rw [hlook, hrf]
          simp [hcond]
        rw [hcost _ hc]
        have hD : alookupD (accumFiles m2r files).2.1 r 0 = fq := by
          simp [alookupD, hrf]
        have h2 : fq ≤ (accumFiles m2r files).2.2 := by
          have h' := accumFiles_rack_le_total m2r files r
          rw [hD] at h'
          exact h'
        rw [hD]
        simp only [sqRackCost]
        have e1 : (((accumFiles m2r files).2.2 - fq : Nat) : Int) =
            ((accumFiles m2r files).2.2 : Int) - fq := by
          omega
        rw [e1]
      · rw [if_neg hcond] at hmem
        simp at hmem
  · unfold taskToClusterAggCost sqAddTask computeCostsAndPreferredSet alookupD
    rw [alookup_aupd_self]
    rfl

end Firmament

namespace Firmament

/-- Counterexample to C2's cost formula as stated: one rack, one machine (id
0), one file of 10 blocks stored only there, `delta_preferred_machine = 1/2`,
`core_transfer_cost = 2`, `tor_transfer_cost = 1`.  The code produces
preference arcs exactly `[0]` with cost 0 (consistent with the claim's own
"in particular" scenario), while the claim's formula
`(total − rack_blocks − local_blocks) · core + (rack_blocks − local_blocks) · tor`
evaluates to `(10 − 10 − 10) · 2 + 0 = -20 ≠ 0`. -/
theorem sq_machine_cost_formula_counterexample :
    getTaskPreferenceArcs (sqAddTask ⟨1/2, 1/2, 2, 1⟩ (fun _ => 0)
        ⟨[], [], []⟩ 0 [⟨10, [0]⟩]) 0 = [0] ∧
    taskToResourceNodeCost (sqAddTask ⟨1/2, 1/2, 2, 1⟩ (fun _ => 0)
        ⟨[], [], []⟩ 0 [⟨10, [0]⟩]) 0 0 = 0 ∧
    claimedMachineCost ⟨1/2, 1/2, 2, 1⟩ 10 10 10 = -20 := by
  have hcond : ((1 : ℚ)/2) ≤ ((10 : Nat) : ℚ) / ((10 : Nat) : ℚ) := by
    norm_num
  have hpm : preferredMachinesOf ⟨1/2, 1/2, 2, 1⟩ (fun _ => 0) [(0, 10)] 10
      [(0, 10)] =
      [(0, sqMachineCost ⟨1/2, 1/2, 2, 1⟩ (fun _ => 0) [(0, 10)] 10 0 10)] := by
    unfold preferredMachinesOf
    simp only [List.filterMap_cons, List.filterMap_nil]
    rw [if_pos hcond]
  refine ⟨?_, ?_, ?_⟩
  · show akeys (preferredMachinesOf ⟨1/2, 1/2, 2, 1⟩ (fun _ => 0) [(0, 10)] 10
      [(0, 10)]) = [0]
    rw [hpm]
    rfl
  · show alookupD (preferredMachinesOf ⟨1/2, 1/2, 2, 1⟩ (fun _ => 0)
      [(0, 10)] 10 [(0, 10)]) 0 (0 : Int) = 0
    rw [hpm]
    decide
  · decide

/-- Witness for C2 (amended) at the claim's own scenario: 10 blocks all on
machine 0, threshold 1/2.  Both hypotheses hold and the instantiated
conclusion follows from the general theorem. -/
theorem sq_machine_preferences_witness :
    (0 : ℚ) < (⟨1/2, 1/2, 2, 1⟩ : SQConfig).deltaPreferredMachine ∧
    (∀ f ∈ [(⟨10, [0]⟩ : SQFile)], f.machines.Nodup) ∧
    ((0 ∈ getTaskPreferenceArcs (sqAddTask ⟨1/2, 1/2, 2, 1⟩ (fun _ => 0)
          ⟨[], [], []⟩ 0 [⟨10, [0]⟩]) 0 ↔
        (⟨1/2, 1/2, 2, 1⟩ : SQConfig).deltaPreferredMachine ≤
          ((alookupD (accumFiles (fun _ => 0) [⟨10, [0]⟩]).1 0 0 : Nat) : ℚ) /
            ((accumFiles (fun _ => 0) [⟨10, [0]⟩]).2.2 : ℚ)) ∧
      (0 ∈ getTaskPreferenceArcs (sqAddTask ⟨1/2, 1/2, 2, 1⟩ (fun _ => 0)
          ⟨[], [], []⟩ 0 [⟨10, [0]⟩]) 0 →
        taskToResourceNodeCost (sqAddTask ⟨1/2, 1/2, 2, 1⟩ (fun _ => 0)
            ⟨[], [], []⟩ 0 [⟨10, [0]⟩]) 0 0 =
          (((accumFiles (fun _ => 0) [⟨10, [0]⟩]).2.2 : Int) -
             ((alookupD (accumFiles (fun _ => 0) [⟨10, [0]⟩]).2.1 0 0 : Nat) :
               Int)) * (⟨1/2, 1/2, 2, 1⟩ : SQConfig).coreTransferCost +
          (((alookupD (accumFiles (fun _ => 0) [⟨10, [0]⟩]).2.1 0 0 : Nat) :
              Int) -
             ((alookupD (accumFiles (fun _ => 0) [⟨10, [0]⟩]).1 0 0 : Nat) :
               Int)) * (⟨1/2, 1/2, 2, 1⟩ : SQConfig).torTransferCost)) := by
  refine ⟨by norm_num, ?_, ?_⟩
  · intro f hf
    rw [List.mem_singleton] at hf
    subst hf
    decide
  · exact sq_machine_preferences ⟨1/2, 1/2, 2, 1⟩ (fun _ => 0) ⟨[], [], []⟩ 0
      [⟨10, [0]⟩] 0 (by norm_num)
      (by intro f hf; rw [List.mem_singleton] at hf; subst hf; decide)

/-- Witness for C7 at the same scenario: rack 0 holds all 10 blocks, the
strict threshold 1/2 is exceeded by proportion 1, and the instantiated
conclusion follows from the general theorem. -/
theorem sq_rack_preferences_witness :
    (0 : ℚ) ≤ (⟨1/2, 1/2, 2, 1⟩ : SQConfig).deltaPreferredRack ∧
    ((0 ∈ getTaskEquivClasses (sqAddTask ⟨1/2, 1/2, 2, 1⟩ (fun _ => 0)
          ⟨[], [], []⟩ 0 [⟨10, [0]⟩]) 0 ↔
        (⟨1/2, 1/2, 2, 1⟩ : SQConfig).deltaPreferredRack <
          ((alookupD (accumFiles (fun _ => 0) [⟨10, [0]⟩]).2.1 0 0 : Nat) : ℚ) /
            ((accumFiles (fun _ => 0) [⟨10, [0]⟩]).2.2 : ℚ)) ∧
      (0 ∈ getTaskEquivClasses (sqAddTask ⟨1/2, 1/2, 2, 1⟩ (fun _ => 0)
          ⟨[], [], []⟩ 0 [⟨10, [0]⟩]) 0 →
        taskToEquivClassAggregator (sqAddTask ⟨1/2, 1/2, 2, 1⟩ (fun _ => 0)
            ⟨[], [], []⟩ 0 [⟨10, [0]⟩]) 0 0 =
          (((accumFiles (fun _ => 0) [⟨10, [0]⟩]).2.2 : Int) -
             ((alookupD (accumFiles (fun _ => 0) [⟨10, [0]⟩]).2.1 0 0 : Nat) :
               Int)) * (⟨1/2, 1/2, 2, 1⟩ : SQConfig).coreTransferCost +
          ((alookupD (accumFiles (fun _ => 0) [⟨10, [0]⟩]).2.1 0 0 : Nat) :
              Int) * (⟨1/2, 1/2, 2, 1⟩ : SQConfig).torTransferCost) ∧
      taskToClusterAggCost (sqAddTask ⟨1/2, 1/2, 2, 1⟩ (fun _ => 0)
          ⟨[], [], []⟩ 0 [⟨10, [0]⟩]) 0 =
        ((accumFiles (fun _ => 0) [⟨10, [0]⟩]).2.2 : Int) *
          (⟨1/2, 1/2, 2, 1⟩ : SQConfig).coreTransferCost) :=
  ⟨by norm_num,
   sq_rack_preferences ⟨1/2, 1/2, 2, 1⟩ (fun _ => 0) ⟨[], [], []⟩ 0
     [⟨10, [0]⟩] 0 (by norm_num)⟩

end Firmament

namespace Firmament

/-- C10: with `generate_trace` false, every public emitter operation returns
the state unchanged and emits nothing. -/
theorem generateTrace_flag_false_noop :
    (∀ (uuidHash : String → Nat) (now : Nat) (st : TraceState)
       (rd : ResourceDescriptor),
       traceAddMachine false uuidHash now st rd = some (st, [])) ∧
    (∀ (uuidHash : String → Nat) (now : Nat) (st : TraceState)
       (rd : ResourceDescriptor),
       traceRemoveMachine false uuidHash now st rd = some (st, [])) ∧
    (∀ (now : Nat) (st : TraceState) (a b c : Nat) (s : String),
       traceSchedulerRun false now st a b c s = some (st, [])) ∧
    (∀ (garbage now : Nat) (st : TraceState) (jd : JobDescriptor)
       (td : TaskDescriptor),
       traceTaskSubmitted false garbage now st jd td = some (st, [])) ∧
    (∀ (now : Nat) (st : TraceState) (taskId : Nat),
       traceTaskScheduled false now st taskId = some (st, [])) ∧
    (∀ (now : Nat) (st : TraceState) (taskId : Nat),
       traceTaskCompleted false now st taskId = some (st, [])) ∧
    (∀ (now : Nat) (st : TraceState) (taskId : Nat),
       traceTaskEvicted false now st taskId = some (st, [])) ∧
    (∀ (now : Nat) (st : TraceState) (taskId : Nat),
       traceTaskFailed false now st taskId = some (st, [])) ∧
    (∀ (now : Nat) (st : TraceState) (taskId : Nat),
       traceTaskKilled false now st taskId = some (st, [])) := by
  refine ⟨?_, ?_, ?_, ?_, ?_, ?_, ?_, ?_, ?_⟩ <;> intros <;> rfl

/-- C9 does not hold for job ids: in the non-simulation branch of
`TaskSubmitted`, `boost::hash_combine(hash, job_id)` reads the local `job_id`
*before* it is ever assigned, so the emitted job id is a function of an
indeterminate value, not of the job name.  Two runs of the same submission
(same job descriptor, name unset, so the non-simulation branch is taken)
whose uninitialised stack values differ produce different rows — the id is
not reproducible.  (The machine-id half of the claim does hold:
`GetMachineId` is a pure function of the descriptor's UUID, seeded with 42;
see the witness of C3's scenario for the job-id-free fields.) -/
theorem traceTaskSubmitted_jobid_from_garbage :
    traceTaskSubmitted true 0 1000 ⟨[], [], []⟩ ⟨none⟩ ⟨1, 0⟩ ≠
      traceTaskSubmitted true 1 1000 ⟨[], [], []⟩ ⟨none⟩ ⟨1, 0⟩ := by
  decide

end Firmament

namespace Firmament

/-- C3: `TaskScheduled` increments `num_runs` and sets `last_schedule_time`
to the event timestamp; each of `TaskCompleted`, `TaskEvicted`, `TaskFailed`,
`TaskKilled` adds `timestamp − last_schedule_time` to `total_runtime`
(wrapping `uint64`), with `TaskCompleted` additionally recording
`runtime = timestamp − last_schedule_time`; and the scenario submit at 1000 /
schedule at 1500 / complete at 3500 yields a final runtime row with
start_time 1000, total_runtime 2000, runtime 2000, num_runs 1 (whatever the
value `g` the uninitialised `job_id` local happens to hold). -/
theorem generateTrace_runtime_accounting :
    (∀ (now : Nat) (st : TraceState) (tid jobId : Nat) (tr : TaskRuntime),
       alookup st.taskToJob tid = some jobId →
       alookup st.taskToRuntime tid = some tr →
       traceTaskScheduled true now st tid =
         some (⟨st.taskToJob, st.jobNumTasks, aupd st.taskToRuntime tid
                  ⟨tr.taskId, tr.startTime, tr.totalRuntime, tr.runtime,
                   now, tr.numRuns + 1⟩⟩,
               [TraceRow.taskEvent now jobId tr.taskId 1])) ∧
    (∀ (now : Nat) (st : TraceState) (tid jobId : Nat) (tr : TaskRuntime),
       alookup st.taskToJob tid = some jobId →
       alookup st.taskToRuntime tid = some tr →
       traceTaskCompleted true now st tid =
         some (⟨st.taskToJob, st.jobNumTasks, aupd st.taskToRuntime tid
                  ⟨tr.taskId, tr.startTime,
                   (tr.totalRuntime + sub64 now tr.lastScheduleTime) % w64,
                   sub64 now tr.lastScheduleTime, tr.lastScheduleTime,
                   tr.numRuns⟩⟩,
               [TraceRow.taskEvent now jobId tr.taskId 4])) ∧
    (∀ (now : Nat) (st : TraceState) (tid jobId : Nat) (tr : TaskRuntime),
       alookup st.taskToJob tid = some jobId →
       alookup st.taskToRuntime tid = some tr →
       traceTaskEvicted true now st tid =
         some (⟨st.taskToJob, st.jobNumTasks, aupd st.taskToRuntime tid
                  ⟨tr.taskId, tr.startTime,
                   (tr.totalRuntime + sub64 now tr.lastScheduleTime) % w64,
                   tr.runtime, tr.lastScheduleTime, tr.numRuns⟩⟩,
               [TraceRow.taskEvent now jobId tr.taskId 2])) ∧
    (∀ (now : Nat) (st : TraceState) (tid jobId : Nat) (tr : TaskRuntime),
       alookup st.taskToJob tid = some jobId →
       alookup st.taskToRuntime tid = some tr →
       traceTaskFailed true now st tid =
         some (⟨st.taskToJob, st.jobNumTasks, aupd st.taskToRuntime tid
                  ⟨tr.taskId, tr.startTime,
                   (tr.totalRuntime + sub64 now tr.lastScheduleTime) % w64,
                   tr.runtime, tr.lastScheduleTime, tr.numRuns⟩⟩,
               [TraceRow.taskEvent now jobId tr.taskId 3])) ∧
    (∀ (now : Nat) (st : TraceState) (tid jobId : Nat) (tr : TaskRuntime),
       alookup st.taskToJob tid = some jobId →
       alookup st.taskToRuntime tid = some tr →
       traceTaskKilled true now st tid =
         some (⟨st.taskToJob, st.jobNumTasks, aupd st.taskToRuntime tid
                  ⟨tr.taskId, tr.startTime,
                   (tr.totalRuntime + sub64 now tr.lastScheduleTime) % w64,
                   tr.runtime, tr.lastScheduleTime, tr.numRuns⟩⟩,
               [TraceRow.taskEvent now jobId tr.taskId 5])) ∧
    (∀ g : Nat,
       traceTaskSubmitted true g 1000 ⟨[], [], []⟩ ⟨none⟩ ⟨42, 0⟩ =
         some (⟨[(42, hashCombine 42 g)], [(hashCombine 42 g, 1)],
                [(42, ⟨42, 1000, 0, 0, 0, 0⟩)]⟩,
               [TraceRow.taskEvent 1000 (hashCombine 42 g) 42 0]) ∧
       traceTaskScheduled true 1500
           ⟨[(42, hashCombine 42 g)], [(hashCombine 42 g, 1)],
            [(42, ⟨42, 1000, 0, 0, 0, 0⟩)]⟩ 42 =
         some (⟨[(42, hashCombine 42 g)], [(hashCombine 42 g, 1)],
                [(42, ⟨42, 1000, 0, 0, 1500, 1⟩)]⟩,
               [TraceRow.taskEvent 1500 (hashCombine 42 g) 42 1]) ∧
       traceTaskCompleted true 3500
           ⟨[(42, hashCombine 42 g)], [(hashCombine 42 g, 1)],
            [(42, ⟨42, 1000, 0, 0, 1500, 1⟩)]⟩ 42 =
         some (⟨[(42, hashCombine 42 g)], [(hashCombine 42 g, 1)],
                [(42, ⟨42, 1000, 2000, 2000, 1500, 1⟩)]⟩,
               [TraceRow.taskEvent 3500 (hashCombine 42 g) 42 4]) ∧
       traceShutdownRows true
           ⟨[(42, hashCombine 42 g)], [(hashCombine 42 g, 1)],
            [(42, ⟨42, 1000, 2000, 2000, 1500, 1⟩)]⟩ =
         some [TraceRow.taskRuntimeRow (hashCombine 42 g) 42
                 (hashCombine 42 g) 1000 2000 2000 1,
               TraceRow.jobNumTasksRow (hashCombine 42 g) 1]) := by
  refine ⟨?_, ?_, ?_, ?_, ?_, ?_⟩
  · intro now st tid jobId tr h1 h2
    simp [traceTaskScheduled, h1, h2]
  · intro now st tid jobId tr h1 h2
    simp [traceTaskCompleted, traceTaskTerminal, h1, h2]
  · intro now st tid jobId tr h1 h2
    simp [traceTaskEvicted, traceTaskTerminal, h1, h2]
  · intro now st tid jobId tr h1 h2
    simp [traceTaskFailed, traceTaskTerminal, h1, h2]
  · intro now st tid jobId tr h1 h2
    simp [traceTaskKilled, traceTaskTerminal, h1, h2]
  · intro g
    exact ⟨rfl, rfl, rfl, rfl⟩

/-- Witness for C3: the scheduling update applied at the scenario's schedule
step (task 42, job 7, timestamp 1500) bumps `num_runs` to 1 and sets
`last_schedule_time` to 1500. -/
theorem generateTrace_runtime_accounting_witness :
    traceTaskScheduled true 1500
        ⟨[(42, 7)], [(7, 1)], [(42, ⟨42, 1000, 0, 0, 0, 0⟩)]⟩ 42 =
      some (⟨[(42, 7)], [(7, 1)], [(42, ⟨42, 1000, 0, 0, 1500, 1⟩)]⟩,
            [TraceRow.taskEvent 1500 7 42 1]) :=
  (generateTrace_runtime_accounting.1 1500
      ⟨[(42, 7)], [(7, 1)], [(42, ⟨42, 1000, 0, 0, 0, 0⟩)]⟩ 42 7
      ⟨42, 1000, 0, 0, 0, 0⟩ rfl rfl).trans (by decide)

end Firmament
